import Mathlib

/-!
# crzy: push-triggered update cycle, push detection, step runner, trigger stage

A shallow embedding of `pkg/git.go` (`GitServer.Updater`, `GitServer.Update`),
`pkg/workflows.go` (`workflow.execute`) and `pkg/trigger.go`
(`triggerWorkflow.start`).

Everything the Go code obtains from outside (file system, child commands,
process start) is read from an explicit `World` record; every call the code
makes is appended to a trace of `Effect`s, in program order.  The upstream
registry behind the `Upstream` interface is explicit state; its operations
follow the specification, the implementation not being among the sources.
A Go panic ends the trace with `Effect.panic`.
-/

namespace Crzy

/-! ## Go string helpers -/

/-- The pieces of a character list between occurrences of `sep`
(`strings.Split` with a one-character separator): never empty. -/
def splitChars (sep : Char) : List Char → List (List Char)
  | [] => [[]]
  | c :: cs =>
    if c = sep then [] :: splitChars sep cs
    else
      match splitChars sep cs with
      | [] => [[c]]
      | p :: ps => (c :: p) :: ps

/-- Go `strings.Split(s, sep)` for a one-character separator. -/
def Split (s : String) (sep : Char) : List String :=
  (splitChars sep s.data).map String.mk

/-- Go `strings.Join(parts, sep)`. -/
def Join : List String → String → String
  | [], _ => ""
  | [a], _ => a
  | a :: b :: rest, sep => a ++ sep ++ Join (b :: rest) sep

/-- Go `strings.TrimSuffix(s, suffix)`: drops `suffix` once when `s` ends with it. -/
def TrimSuffix (s suffix : String) : String :=
  if suffix.data.isSuffixOf s.data then
    String.mk (s.data.take (s.data.length - suffix.data.length))
  else s

/-- Go slice expression `xs[n:]`: `none` stands for the run-time panic
"slice bounds out of range" raised when `n > len(xs)`. -/
def sliceFrom {α : Type} (n : Nat) (xs : List α) : Option (List α) :=
  if n ≤ xs.length then some (xs.drop n) else none

/-- Character class `[0-9a-f]`. -/
def isLowerHex (c : Char) : Bool :=
  decide ('0' ≤ c ∧ c ≤ '9') || decide ('a' ≤ c ∧ c ≤ 'f')

/-- Result of `regexp.MustCompile("([0-9a-f]*)").FindStringSubmatch(s)`: the
pattern is not anchored and may match the empty string, so the leftmost match
starts at offset 0 and is the longest leading run of `[0-9a-f]`; the result
holds the whole match and the one capture group. -/
def FindStringSubmatch (s : String) : List String :=
  let m := String.mk (s.data.takeWhile isLowerHex)
  [m, m]

/-- Line 154 of `git.go`:
`strings.Join(strings.Split(strings.TrimSuffix(string(output), "\n"), "/")[2:], "/")`.
`none` is the slice panic. -/
def currentRef (output : String) : Option String :=
  (sliceFrom 2 (Split (TrimSuffix output "\n") '/')).map (fun parts => Join parts "/")

/-! ## Data model -/

/-- An `*exec.Cmd`: `Process` is nil until `Start` has succeeded. -/
structure Cmd where
  Path : String
  Env : List String
  Process : Option Nat
deriving DecidableEq, Repr

/-- The value handed to `Register`: `HTTPProcess{Addr: port, Cmd: cmd}`. -/
structure HTTPProcess where
  Addr : String
  Cmd : Cmd
deriving DecidableEq, Repr

/-- Modelled from the spec: one entry of the instance map. Its registry key is
`name + "/" + version`. -/
structure Entry where
  name : String
  version : String
  proc : HTTPProcess
deriving DecidableEq, Repr

/-- Modelled from the spec: the registry key `name + "/" + version`. -/
def Entry.key (e : Entry) : String :=
  e.name ++ "/" ++ e.version

/-- Modelled from the spec: the state behind the `Upstream` interface, whose
implementation is not among the sources. `instances` maps a registry key to
its instance, `defaultKey` is the default pointer (empty for none) and
`[portMin, portMax]` is the port range; the allocated ports are those held by
the registered instances. -/
structure Upstream where
  instances : List Entry
  defaultKey : String
  portMin : Nat
  portMax : Nat
deriving DecidableEq, Repr

namespace Upstream

/-- Modelled from the spec: `lookup(key)`, `none` standing for `NotFound`. -/
def Lookup (u : Upstream) (key : String) : Option HTTPProcess :=
  (u.instances.find? (fun e => e.key == key)).map (fun e => e.proc)

/-- Modelled from the spec: `getDefault()`, a read of the default pointer. -/
def GetDefault (u : Upstream) : String :=
  u.defaultKey

/-- Modelled from the spec: `register(name, version, instance, makeDefault)`
inserts the key `name/version` and, when `makeDefault` holds, moves the default
pointer to it; it fails (`false`, state unchanged) when the key is present. -/
def Register (u : Upstream) (name version : String) (p : HTTPProcess)
    (makeDefault : Bool) : Upstream × Bool :=
  match u.Lookup (name ++ "/" ++ version) with
  | some _ => (u, false)
  | none =>
    ({ u with
        instances := { name := name, version := version, proc := p } :: u.instances
        defaultKey := if makeDefault then name ++ "/" ++ version else u.defaultKey }, true)

/-- Modelled from the spec: `unregister(name, version)` removes the key; it
fails (`false`, state unchanged) when the key is absent. -/
def Unregister (u : Upstream) (name version : String) : Upstream × Bool :=
  match u.Lookup (name ++ "/" ++ version) with
  | none => (u, false)
  | some _ =>
    ({ u with
        instances := u.instances.filter (fun e => !(e.key == name ++ "/" ++ version)) }, true)

/-- Modelled from the spec: `nextPort()` is the lowest port of the range that
no registered instance holds, `none` standing for `PortExhausted`. The pipeline
registers an instance under the port string it was given, so a port is held
when it is the `Addr` of an instance. -/
def NextPort (u : Upstream) : Option String :=
  ((List.range' u.portMin (u.portMax + 1 - u.portMin)).find?
    (fun p => !u.instances.any (fun e => e.proc.Addr == toString p))).map toString

/-- The registry entry keeps the `*exec.Cmd` pointer it was given, so a
successful `cmd.Start()` after `Register` is visible through `Lookup`: the
entry under `key` gets the process. -/
def started (u : Upstream) (key : String) (pid : Nat) : Upstream :=
  { u with
      instances := u.instances.map (fun e =>
        if e.key = key then
          { e with proc := { e.proc with Cmd := { e.proc.Cmd with Process := some pid } } }
        else e) }

end Upstream

/-- The fields of `GitServer` the update cycle reads. -/
structure GitServer where
  gitRootPath : String
  gitBinPath : String
  repoName : String
  absRepoPath : String
  workspace : String
  head : String
deriving DecidableEq, Repr

/-- Constant `workarea`. -/
def workarea : String := "workarea"

/-- Constant `artifacts`. -/
def artifacts : String := "execs"

/-- Outcome of `os.Stat`: no error, an error that is `os.ErrNotExist`, or
another error. -/
inductive StatResult where
  | ok
  | notExist
  | otherErr
deriving DecidableEq, Repr

/-- Outcome of `os.Mkdir`: no error, an error for which `os.IsExist` holds,
or another error with its text. -/
inductive MkdirResult where
  | ok
  | exist
  | otherErr (err : String)
deriving DecidableEq, Repr

/-- What one cycle reads from outside the program. `extension` is the
package variable set from `runtime.GOOS`; `pathJoin` is `path.Join`;
`execCmd dir name args` is the combined output and the error (if any) of a
child command; `Start path env` is the pid given by `cmd.Start()` or `none`
when the start fails. -/
structure World where
  extension : String
  pathJoin : String → String → String
  Stat : String → StatResult
  ReadFile : String → Except String String
  Mkdir : String → MkdirResult
  execCmd : String → String → List String → String × Option String
  Start : String → List String → Option Nat

/-- One call made by the cycle, with the arguments it was made with. -/
inductive Effect where
  | stat (path : String)
  | readFile (path : String)
  | mkdir (path : String)
  | execCmd (dir name : String) (args : List String)
  | logInfo (msg : String) (kv : List String)
  | logError (err msg : String) (kv : List String)
  | getDefault
  | lookup (key : String)
  | nextPort
  | register (name version : String) (p : HTTPProcess) (makeDefault : Bool)
  | unregister (name version : String)
  | start (cmd : Cmd) (pid : Option Nat)
  | kill (pid : Nat)
  | panic (msg : String)
deriving DecidableEq, Repr

/-- Registry after a cycle and the calls the cycle made, in order. -/
structure Result where
  upstream : Upstream
  trace : List Effect
deriving DecidableEq, Repr

/-- The calls `pre` happened before those of `r`. -/
def Result.after (pre : List Effect) (r : Result) : Result :=
  { r with trace := pre ++ r.trace }

/-- The log lines of `for _, v := range strings.Split(string(output), "\n")`. -/
def logLines (output : String) : List Effect :=
  (Split output '\n').map (fun v => Effect.logInfo v [])

/-! ## `GitServer.Update`: the cycle queued on the action channel -/

/-- Lines 220-233: retire the previous default `old`. `cmd.Process` is nil for
a command that never started, and `cmd.Process.Kill()` on it panics; the error
of `Kill` and the result of `Unregister` are dropped. -/
def retire (u : Upstream) (old : String) : Result :=
  if old = "" then ⟨u, []⟩
  else
    match u.Lookup old with
    | none => ⟨u, [.lookup old]⟩
    | some p =>
      match p.Cmd.Process with
      | none => ⟨u, [.lookup old, .panic "invalid memory address or nil pointer dereference"]⟩
      | some pid =>
        let key := Split old '/'
        if key.length < 2 then ⟨u, [.lookup old, .kill pid]⟩
        else
          let name := Join (key.take (key.length - 1)) "/"
          let version := key.getLastD ""
          ⟨(u.Unregister name version).1,
            [.lookup old, .kill pid,
             .logInfo "stopping instance" ["data", name ++ "," ++ version],
             .unregister name version]⟩

/-- Lines 215-219: the registry once the new instance is registered as
default and `cmd.Start()` has run (its error is dropped). -/
def promoted (w : World) (u : Upstream) (exe : String) (p : HTTPProcess) : Upstream :=
  let u1 := (u.Register exe "v1" p true).1
  match w.Start p.Cmd.Path p.Cmd.Env with
  | some n => u1.started (exe ++ "/v1") n
  | none => u1

/-- Lines 204-219, then `retire`: idempotence check, port, registration as
default, process start. -/
def launch (w : World) (u : Upstream) (artifact exe : String) : Result :=
  let old := u.GetDefault
  match u.Lookup (exe ++ "/v1") with
  | some _ =>
    ⟨u, [.getDefault, .lookup (exe ++ "/v1"),
         .logInfo "executable is already running" ["data", exe]]⟩
  | none =>
    match u.NextPort with
    | none =>
      ⟨u, [.getDefault, .lookup (exe ++ "/v1"), .nextPort,
           .logError "PortExhausted" "no port available" []]⟩
    | some port =>
      let cmd : Cmd := { Path := artifact, Env := ["PORT=" ++ port], Process := none }
      (retire (promoted w u exe { Addr := port, Cmd := cmd }) old).after
        [.getDefault, .lookup (exe ++ "/v1"), .nextPort,
         .logInfo "starting instance" ["data", exe ++ "," ++ port],
         .register exe "v1" { Addr := port, Cmd := cmd } true,
         .start cmd (w.Start artifact cmd.Env)]

/-- Line 195: `fmt.Sprintf("%s-%s%s", repo, sha, extension)`. -/
def exeName (w : World) (repo sha : String) : String :=
  repo ++ "-" ++ sha ++ w.extension

/-- Lines 189 and 194: `fmt.Sprintf("%s/%s-%s%s", artipath, repo, sha, extension)`
with `artipath = path.Join(g.gitRootPath, artifacts)`. -/
def artifactPath (g : GitServer) (w : World) (repo sha : String) : String :=
  w.pathJoin g.gitRootPath artifacts ++ "/" ++ repo ++ "-" ++ sha ++ w.extension

/-- Lines 189-203, then `launch`: artifact directory, names, build. -/
def building (g : GitServer) (w : World) (u : Upstream) (repo sha : String) : Result :=
  let artipath := w.pathJoin g.gitRootPath artifacts
  match w.Mkdir artipath with
  | .otherErr err =>
    ⟨u, [.mkdir artipath,
         .logError err "artipath directory creation failed" ["data", artipath]]⟩
  | _ =>
    let artifact := artifactPath g w repo sha
    let exe := exeName w repo sha
    let out := w.execCmd g.workspace "go" ["build", "-o", artifact, "."]
    let pre := [.mkdir artipath, .execCmd g.workspace "go" ["build", "-o", artifact, "."]]
      ++ logLines out.1
    match out.2 with
    | some err => ⟨u, pre ++ [.logError err "build fail" []]⟩
    | none => (launch w u artifact exe).after pre

/-- Lines 182-188, then `building`: check the output of the commit-hash
command and cut the 16-character suffix. -/
def naming (g : GitServer) (w : World) (u : Upstream) (repo output : String) : Result :=
  match FindStringSubmatch output with
  | _ :: m1 :: _ =>
    if m1.length ≠ 40 then ⟨u, [.logError "wrongsha" output []]⟩
    else building g w u repo (String.mk (m1.data.take 16))
  | _ => ⟨u, [.logError "wrongsha" output []]⟩

/-- Lines 169-181, then `naming`: tests, then the commit-hash command. -/
def testing (g : GitServer) (w : World) (u : Upstream) (repo : String) : Result :=
  let t := w.execCmd g.workspace "go" ["test", "-v", "./..."]
  let pre := Effect.execCmd g.workspace "go" ["test", "-v", "./..."] :: logLines t.1
  match t.2 with
  | some err => ⟨u, pre ++ [.logError err "tests fail" []]⟩
  | none =>
    let h := w.execCmd g.workspace "git" ["log", "-1", "--format=%H", "."]
    let pre2 := pre ++ [.execCmd g.workspace "git" ["log", "-1", "--format=%H", "."]]
    match h.2 with
    | some err => ⟨u, pre2 ++ [.logError err "could not get SHA" []]⟩
    | none => (naming g w u repo h.1).after pre2

/-- Lines 149-168, then `testing`: bring the workspace to the tracked head. -/
def syncing (g : GitServer) (w : World) (u : Upstream) (repo : String) : Result :=
  let headFile := w.pathJoin g.workspace ".git/HEAD"
  match w.ReadFile headFile with
  | .error err => ⟨u, [.readFile headFile, .logError err "cannot read .git/HEAD" []]⟩
  | .ok output =>
    match currentRef output with
    | none => ⟨u, [.readFile headFile, .panic "slice bounds out of range"]⟩
    | some current =>
      let pull (pre : List Effect) : Result :=
        let p := w.execCmd g.workspace "git" ["pull"]
        let pre2 := pre ++ [.execCmd g.workspace "git" ["pull"]]
        match p.2 with
        | some err => ⟨u, pre2 ++ [.logError err "could not run git pull," ["data", p.1]]⟩
        | none => (testing g w u repo).after pre2
      if current ≠ g.head then
        let f := w.execCmd g.workspace "git" ["fetch", "-p"]
        let pre1 := [.readFile headFile, .execCmd g.workspace "git" ["fetch", "-p"]]
        match f.2 with
        | some err => ⟨u, pre1 ++ [.logError err "could not run git fetch," ["data", f.1]]⟩
        | none =>
          let c := w.execCmd g.workspace "git" ["checkout", g.head]
          let pre2 := pre1 ++ [.execCmd g.workspace "git" ["checkout", g.head]]
          match c.2 with
          | some err =>
            ⟨u, pre2 ++ [.logError err "could not run git checkout," ["data", c.1]]⟩
          | none => pull pre2
      else pull [.readFile headFile]

/-- The closure `f` that `GitServer.Update(repo)` sends on the action channel
(lines 141-234): one update cycle, run against the registry `u`. -/
def Update (g : GitServer) (w : World) (u : Upstream) (repo : String) : Result :=
  match w.Stat g.workspace with
  | .notExist =>
    let c := w.execCmd g.gitRootPath "git" ["clone", g.absRepoPath, g.workspace]
    let pre := [Effect.stat g.workspace,
      .execCmd g.gitRootPath "git" ["clone", g.absRepoPath, g.workspace]]
    match c.2 with
    | some err => ⟨u, pre ++ [.logError err "could not clone" ["data", g.absRepoPath]]⟩
    | none => ⟨u, pre⟩
  | _ => (syncing g w u repo).after [.stat g.workspace]

/-! ## `GitServer.Updater`: the push trigger -/

/-- The parts of an `*http.Request` the handler chain can read or change. -/
structure Request where
  Method : String
  Path : String
  Body : String
deriving DecidableEq, Repr

/-- Calls made by the handler that `Updater` returns. -/
inductive HandlerCall where
  | ServeHTTP (r : Request)
  | Update (repo : String)
deriving DecidableEq, Repr

/-- The calls to the wrapped handler. -/
def HandlerCall.isServeHTTP : HandlerCall → Bool
  | .ServeHTTP _ => true
  | .Update _ => false

/-- Constant `http.MethodPost`. -/
def MethodPost : String := "POST"

/-- Lines 126-135: the handler returned by `g.Updater(next)`, applied to the
request `r`. The wrapped handler gets the request by pointer, `next r` being
the request as it leaves it; path and method are read before it runs. The
result is the calls made, in order, and the request afterwards. -/
def Updater (g : GitServer) (next : Request → Request) (r : Request) :
    List HandlerCall × Request :=
  let path := r.Path
  let method := r.Method
  let r1 := next r
  if path = "/" ++ g.repoName ++ "/git-receive-pack" ∧ method = MethodPost then
    ([.ServeHTTP r, .Update g.repoName], r1)
  else
    ([.ServeHTTP r], r1)

/-! ## `workflow.execute`: the step runner -/

/-- An environment variable of a step (`envVar`). -/
structure envVar where
  Name : String
  Value : String
deriving DecidableEq, Repr

/-- A configured step (`execStruct`), with the fields the runner reads. -/
structure execStruct where
  name : String
  Command : String
  Args : List String
  WorkDir : String
  Envs : List envVar
  Output : String
deriving DecidableEq, Repr

/-- Step status constants `runnerStatusStarted`, `runnerStatusDone` and
`runnerStatusFailed`. -/
inductive runnerStatus where
  | runnerStatusStarted
  | runnerStatusDone
  | runnerStatusFailed
deriving DecidableEq, Repr

/-- The record handed to `notifyStep` (`step`). -/
structure step where
  exec : execStruct
  Name : String
  StartTime : Option Nat
  Duration : Option Nat
deriving DecidableEq, Repr

/-- One call `w.state.notifyStep(version, name, status, step)`. -/
structure Notification where
  version : String
  name : String
  status : runnerStatus
  record : step
deriving DecidableEq, Repr

/-- The fields of `workflow` the runner reads. -/
structure workflow where
  version : String
  name : String
  basedir : String
  envs : List envVar
deriving DecidableEq, Repr

/-- A resolved command, as `execStruct.prepare` returns it. -/
structure PreparedCmd where
  Path : String
  Args : List String
  Dir : String
  Env : List String
deriving DecidableEq, Repr

/-- What `workflow.execute` reads from outside: `prepare` is
`execStruct.prepare` (its source is not given; it fails on a template it cannot
resolve), `Now` is the clock at `time.Now()`, `Since` the duration measured by
`time.Since`, `CombinedOutput` the output and error (if any) of the command. -/
structure Runner where
  prepare : execStruct → String → List envVar → Except String PreparedCmd
  Now : Nat
  Since : Nat → Nat
  CombinedOutput : PreparedCmd → String × Option String

/-- What one call of `workflow.execute` did: the returned `(*envVar, error)`,
the `notifyStep` calls and the lines logged. -/
structure Executed where
  value : Option envVar
  err : Option String
  notified : List Notification
  logged : List String
deriving DecidableEq, Repr

/-- Lines 102-135 of `workflows.go`: `workflow.execute`. -/
def workflow.execute (wf : workflow) (rt : Runner) (e : execStruct) : Executed :=
  match rt.prepare e wf.basedir wf.envs with
  | .error err => { value := none, err := some err, notified := [], logged := [] }
  | .ok cmd =>
    let start := rt.Now
    let out := rt.CombinedOutput cmd
    let duration := rt.Since start
    let status :=
      match out.2 with
      | some _ => runnerStatus.runnerStatusFailed
      | none => runnerStatus.runnerStatusDone
    let note : Notification :=
      { version := wf.version, name := wf.name, status := status,
        record := { exec := e, Name := e.name, StartTime := some start,
                    Duration := some duration } }
    let results := Split out.1 '\n'
    match out.2 with
    | some err => { value := none, err := some err, notified := [note], logged := results }
    | none =>
      if e.Output ≠ "" then
        { value := some { Name := e.Output, Value := results.headD "" }, err := none,
          notified := [note], logged := results }
      else { value := none, err := none, notified := [note], logged := results }

/-! ## `triggerWorkflow.start`: the trigger stage -/

/-- Constant `triggeredMessage`. -/
def triggeredMessage : String := "triggered"

/-- Constant `deployedMessage`. -/
def deployedMessage : String := "deployed"

/-- The case the `select` of line 18 takes: a value received on the action
channel, or the cancellation of the context. -/
inductive Selected where
  | action (a : String)
  | done
deriving DecidableEq, Repr

/-- State of the stage: the lines logged, the messages sent on the `version`
channel (oldest first) and, once the function has returned, its error
(`some none` is a return of `nil`). -/
structure TriggerState where
  logged : List String
  sent : List String
  returned : Option (Option String)
deriving DecidableEq, Repr

/-- The stage before its first `select`. -/
def TriggerState.init : TriggerState :=
  { logged := [], sent := [], returned := none }

/-- One turn of the loop of lines 17-26, the send on the `version` channel
being taken by its receiver. Once the function has returned, nothing more
happens. -/
def triggerWorkflow.step (s : TriggerState) (c : Selected) : TriggerState :=
  match s.returned with
  | some _ => s
  | none =>
    match c with
    | .action a =>
      { s with
          logged := s.logged ++ ["trigger " ++ a ++ " started..."]
          sent := s.sent ++ [triggeredMessage] }
    | .done => { s with returned := some none }

/-- Lines 16-27 of `trigger.go`: `triggerWorkflow.start` driven by the cases
its `select` takes, in order. -/
def triggerWorkflow.start (cases : List Selected) : TriggerState :=
  cases.foldl triggerWorkflow.step TriggerState.init

/-! ## Sample inputs -/

/-- A server for the repository `svc`. -/
def svc : GitServer :=
  { gitRootPath := "/tmp/crzy", gitBinPath := "/usr/bin/git", repoName := "svc",
    absRepoPath := "/tmp/crzy/svc", workspace := "/tmp/crzy/workarea", head := "main" }

/-- A 40-character commit hash. -/
def sampleSha : String := "abcdef0123456789abcdef0123456789abcdef01"

/-- A push on the tracked branch where every step succeeds and the new
process gets pid 4242. -/
def pushWorld : World :=
  { extension := ""
    pathJoin := fun a b => a ++ "/" ++ b
    Stat := fun _ => .ok
    ReadFile := fun _ => .ok "ref: refs/heads/main\n"
    Mkdir := fun _ => .exist
    execCmd := fun _ name args =>
      if name = "git" ∧ args = ["log", "-1", "--format=%H", "."] then (sampleSha ++ "\n", none)
      else ("ok", none)
    Start := fun _ _ => some 4242 }

/-- The command of a running instance of an earlier commit. -/
def oldCmd : Cmd :=
  { Path := "/tmp/crzy/execs/svc-0000000000000000", Env := ["PORT=8090"],
    Process := some 4141 }

/-- A registry whose default is the running instance of an earlier commit. -/
def served : Upstream :=
  { instances :=
      [{ name := "svc-0000000000000000", version := "v1",
         proc := { Addr := "8090", Cmd := oldCmd } }]
    defaultKey := "svc-0000000000000000/v1"
    portMin := 8090
    portMax := 8100 }


/-- A push that finds no workspace directory. -/
def firstPushWorld : World :=
  { pushWorld with Stat := fun _ => .notExist }

/-- A registry that already serves the commit of `sampleSha`. -/
def servedSample : Upstream :=
  { instances :=
      [{ name := "svc-abcdef0123456789", version := "v1",
         proc := { Addr := "8090",
                   Cmd := { Path := "/tmp/crzy/execs/svc-abcdef0123456789",
                            Env := ["PORT=8090"], Process := some 4141 } } }]
    defaultKey := "svc-abcdef0123456789/v1"
    portMin := 8090
    portMax := 8100 }

/-- The registry `served` with a port range of one port, which its instance
holds. -/
def servedFull : Upstream :=
  { served with portMax := 8090 }

/-- The world of `pushWorld` where the new process fails to start. -/
def failedStartWorld : World :=
  { pushWorld with Start := fun _ _ => none }

/-- A commit-hash output where text follows the 40 hexadecimal characters. -/
def dirtyOutput : String := sampleSha ++ " dirty\n"

/-- The content of `.git/HEAD` when a commit, not a branch, is checked out. -/
def detachedHead : String := "4b825dc642cb6eb9a060e54bf8d69288fbee4904\n"

/-- The world of `pushWorld` with a detached `HEAD`. -/
def detachedWorld : World :=
  { pushWorld with ReadFile := fun _ => .ok detachedHead }

/-- A test step. -/
def testStep : execStruct :=
  { name := "test", Command := "go", Args := ["test", "-v", "./..."], WorkDir := ".",
    Envs := [], Output := "" }

/-- A workflow for version `v1`. -/
def sampleWorkflow : workflow :=
  { version := "v1", name := "deploy", basedir := "/tmp/crzy/workarea", envs := [] }

/-- A run where the templates of the step do not resolve. -/
def unresolvedRunner : Runner :=
  { prepare := fun _ _ _ => .error "template"
    Now := 100
    Since := fun t => 105 - t
    CombinedOutput := fun _ => ("", none) }

/-- A run where the step resolves and its command exits with an error. -/
def failingRunner : Runner :=
  { prepare := fun e dir _ => .ok { Path := e.Command, Args := e.Args, Dir := dir, Env := [] }
    Now := 100
    Since := fun t => 105 - t
    CombinedOutput := fun _ => ("FAIL\n", some "exit status 1") }

/-- The world of `pushWorld` on a platform whose executables end in `.exe`. -/
def exeWorld : World :=
  { pushWorld with extension := ".exe" }

/-- The world of `pushWorld` where the commit-hash command prints
`dirtyOutput`. -/
def dirtyWorld : World :=
  { pushWorld with
      execCmd := fun _ name args =>
        if name = "git" ∧ args = ["log", "-1", "--format=%H", "."] then (dirtyOutput, none)
        else ("ok", none) }

/-- The registry left by the push of `failedStartWorld` on `served`: its
default is an instance whose process never started. -/
def afterFailedStart : Upstream :=
  (Update svc failedStartWorld served "svc").upstream

/-- A later push, of another commit, where every step succeeds. -/
def secondPushWorld : World :=
  { pushWorld with
      execCmd := fun _ name args =>
        if name = "git" ∧ args = ["log", "-1", "--format=%H", "."] then
          ("1111111111111111111111111111111111111111\n", none)
        else ("ok", none) }

/-- A registry whose default pointer names a key that is not registered. -/
def dangling : Upstream :=
  { instances := [], defaultKey := "svc-abcdef0123456789/v1", portMin := 8090,
    portMax := 8100 }

/-- The output of the commit-hash command of line 177. -/
def commitOutput (g : GitServer) (w : World) : String :=
  (w.execCmd g.workspace "git" ["log", "-1", "--format=%H", "."]).1

/-- The capture group `match[1]` of line 183 for a given output. -/
def shaMatch (output : String) : String :=
  String.mk (output.data.takeWhile isLowerHex)

/-- Line 188: `match[1][0:16]`. -/
def sha16 (output : String) : String :=
  String.mk ((shaMatch output).data.take 16)

/-- Calls that stay outside the registry and the processes: file system,
child commands, logging, and the panic marker. -/
def Effect.isLocal : Effect → Bool
  | .stat _ => true
  | .readFile _ => true
  | .mkdir _ => true
  | .execCmd _ _ _ => true
  | .logInfo _ _ => true
  | .logError _ _ _ => true
  | .panic _ => true
  | _ => false

/-- Every call of the trace is local. -/
def Local (t : List Effect) : Prop :=
  ∀ e ∈ t, e.isLocal = true

/-- The registry and process calls of a trace, in order. -/
def upstreamCalls (t : List Effect) : List Effect :=
  t.filter (fun e => !e.isLocal)

/-- Calls that change the registry or a process: `Register`, `Unregister`,
process start, process kill. -/
def Effect.isWrite : Effect → Bool
  | .register _ _ _ _ => true
  | .unregister _ _ => true
  | .start _ _ => true
  | .kill _ => true
  | _ => false

/-- A stage either stops with the registry untouched after local calls only,
or hands over to the next stage after local calls only. -/
def StopsOr (u : Upstream) (r : Result) (cond : Prop) (next : Result) : Prop :=
  (∃ t, r = ⟨u, t⟩ ∧ Local t) ∨ (∃ pre, Local pre ∧ cond ∧ r = next.after pre)

/-- The registry invariant of the data model: the default pointer is empty or
names a registered instance. -/
def DefaultRegistered (u : Upstream) : Prop :=
  u.defaultKey = "" ∨ (u.Lookup u.defaultKey).isSome = true

/-- Character-list counterpart of `Join`. -/
def joinChars (sep : List Char) : List (List Char) → List Char
  | [] => []
  | [a] => a
  | a :: b :: rest => a ++ sep ++ joinChars sep (b :: rest)

/-! ## Facts about the string helpers -/

theorem splitChars_ne_nil (sep : Char) (l : List Char) : splitChars sep l ≠ [] := by
  cases l with
  | nil => simp [splitChars]
  | cons c cs =>
    unfold splitChars
    split_ifs
    · simp
    · split <;> simp

theorem splitChars_cons_sep (sep : Char) (cs : List Char) :
    splitChars sep (sep :: cs) = [] :: splitChars sep cs := by
  simp [splitChars]

theorem splitChars_cons_other (sep c : Char) (cs : List Char) (h : c ≠ sep) :
    ∃ p ps, splitChars sep cs = p :: ps ∧ splitChars sep (c :: cs) = (c :: p) :: ps := by
  cases hs : splitChars sep cs with
  | nil => exact absurd hs (splitChars_ne_nil sep cs)
  | cons p ps => exact ⟨p, ps, rfl, by simp [splitChars, h, hs]⟩

theorem joinChars_cons_cons (sep : List Char) (c : Char) (p : List Char)
    (ps : List (List Char)) :
    joinChars sep ((c :: p) :: ps) = c :: joinChars sep (p :: ps) := by
  cases ps <;> simp [joinChars]

theorem joinChars_splitChars (sep : Char) (l : List Char) :
    joinChars [sep] (splitChars sep l) = l := by
  induction l with
  | nil => simp [splitChars, joinChars]
  | cons c cs ih =>
    by_cases h : c = sep
    · subst h
      rw [splitChars_cons_sep]
      cases hs : splitChars c cs with
      | nil => exact absurd hs (splitChars_ne_nil c cs)
      | cons p ps =>
        rw [hs] at ih
        simp [joinChars, ih]
    · obtain ⟨p, ps, hs, hc⟩ := splitChars_cons_other sep c cs h
      rw [hc, joinChars_cons_cons, ← hs, ih]

theorem Join_data (sep : String) (parts : List (List Char)) :
    (Join (parts.map String.mk) sep).data = joinChars sep.data parts := by
  induction parts with
  | nil => simp [Join, joinChars]
  | cons a rest ih =>
    cases rest with
    | nil => simp [Join, joinChars]
    | cons b rest =>
      simp only [List.map_cons, Join, joinChars, String.data_append] at ih ⊢
      rw [ih]

theorem Join_Split (s : String) : Join (Split s '/') "/" = s := by
  apply String.ext
  rw [Split, Join_data]
  exact joinChars_splitChars '/' s.data

theorem splitChars_append_sep (sep : Char) (a b : List Char) (h : sep ∉ a) :
    splitChars sep (a ++ sep :: b) = a :: splitChars sep b := by
  induction a with
  | nil => simp [splitChars]
  | cons c cs ih =>
    have hc : c ≠ sep := fun e => h (by simp [e])
    have hcs : sep ∉ cs := fun e => h (by simp [e])
    simp [splitChars, hc, ih hcs]

theorem splitChars_length (sep : Char) (l : List Char) (h : sep ∈ l) :
    2 ≤ (splitChars sep l).length := by
  induction l with
  | nil => simp at h
  | cons c cs ih =>
    by_cases hc : c = sep
    · subst hc
      rw [splitChars_cons_sep]
      have := splitChars_ne_nil c cs
      cases hs : splitChars c cs with
      | nil => exact absurd hs this
      | cons p ps => simp
    · obtain ⟨p, ps, hs, hcc⟩ := splitChars_cons_other sep c cs hc
      have hmem : sep ∈ cs := by
        rcases List.mem_cons.1 h with e | e
        · exact absurd e.symm hc
        · exact e
      have := ih hmem
      rw [hs] at this
      rw [hcc]
      simpa using this

theorem splitChars_no_sep (sep : Char) (l : List Char) :
    ∀ p ∈ splitChars sep l, sep ∉ p := by
  induction l with
  | nil => simp [splitChars]
  | cons c cs ih =>
    by_cases hc : c = sep
    · subst hc
      rw [splitChars_cons_sep]
      intro p hp
      rcases List.mem_cons.1 hp with e | e
      · simp [e]
      · exact ih p e
    · obtain ⟨p, ps, hs, hcc⟩ := splitChars_cons_other sep c cs hc
      rw [hcc]
      rw [hs] at ih
      intro q hq
      rcases List.mem_cons.1 hq with e | e
      · subst e
        have := ih p (by simp)
        intro hmem
        rcases List.mem_cons.1 hmem with e1 | e1
        · exact hc e1.symm
        · exact this e1
      · exact ih q (by simp [e])

theorem joinChars_append_last (sep : List Char) (init : List (List Char)) (last : List Char)
    (h : init ≠ []) :
    joinChars sep (init ++ [last]) = joinChars sep init ++ sep ++ last := by
  induction init with
  | nil => exact absurd rfl h
  | cons a rest ih =>
    cases rest with
    | nil => simp [joinChars]
    | cons b rest =>
      have := ih (by simp)
      rw [List.cons_append] at this
      show joinChars sep (a :: b :: (rest ++ [last])) = _
      rw [joinChars, this]
      simp [joinChars]


theorem Split_last (s : String) (h : '/' ∈ s.data) :
    ¬ (Split s '/').length < 2 ∧
    Join ((Split s '/').take ((Split s '/').length - 1)) "/" ++ "/"
      ++ (Split s '/').getLastD "" = s ∧
    '/' ∉ ((Split s '/').getLastD "").data := by
  have hlen := splitChars_length '/' s.data h
  have hne := splitChars_ne_nil '/' s.data
  have hjoin := joinChars_splitChars '/' s.data
  have hno := splitChars_no_sep '/' s.data
  obtain ⟨init, last, hL⟩ : ∃ init last, splitChars '/' s.data = init ++ [last] :=
    ⟨_, _, (List.dropLast_append_getLast hne).symm⟩
  rw [hL] at hlen hjoin hno
  have hinit : init ≠ [] := by
    intro e
    simp [e] at hlen
  have hS : Split s '/' = init.map String.mk ++ [String.mk last] := by
    simp [Split, hL]
  rw [hS]
  refine ⟨?_, ?_, ?_⟩
  · simp at hlen ⊢
    omega
  · apply String.ext
    rw [joinChars_append_last _ _ _ hinit] at hjoin
    simp [Join_data, hjoin]
  · simpa using hno last (by simp)

/-! ## The shape of a cycle -/

theorem Local_nil : Local [] := by
  simp [Local]

theorem Local_cons (e : Effect) (t : List Effect) :
    Local (e :: t) ↔ e.isLocal = true ∧ Local t := by
  simp [Local]

theorem Local_append (a b : List Effect) : Local (a ++ b) ↔ Local a ∧ Local b := by
  simp only [Local, List.mem_append]
  constructor
  · intro h
    exact ⟨fun e he => h e (Or.inl he), fun e he => h e (Or.inr he)⟩
  · rintro ⟨ha, hb⟩ e (he | he)
    · exact ha e he
    · exact hb e he

theorem logLines_local (output : String) : Local (logLines output) := by
  intro e he
  simp only [logLines, List.mem_map] at he
  obtain ⟨v, _, rfl⟩ := he
  rfl

theorem after_after (a b : List Effect) (r : Result) :
    (r.after a).after b = r.after (b ++ a) := by
  simp [Result.after]

theorem building_cases (g : GitServer) (w : World) (u : Upstream) (repo sha : String) :
    StopsOr u (building g w u repo sha)
      ((w.execCmd g.workspace "go" ["build", "-o", artifactPath g w repo sha, "."]).2 = none)
      (launch w u (artifactPath g w repo sha) (exeName w repo sha)) := by
  have hl := logLines_local
    (w.execCmd g.workspace "go" ["build", "-o", artifactPath g w repo sha, "."]).1
  unfold StopsOr building
  cases hb : (w.execCmd g.workspace "go" ["build", "-o", artifactPath g w repo sha, "."]).2 with
  | some err =>
    left
    cases hm : w.Mkdir (w.pathJoin g.gitRootPath artifacts) <;> simp only [hb, hm] <;>
      exact ⟨_, rfl, by simp [Local_cons, Local_append, Local_nil, Effect.isLocal, hl]⟩
  | none =>
    cases hm : w.Mkdir (w.pathJoin g.gitRootPath artifacts) <;> simp only [hb, hm]
    · right
      refine ⟨_, ?_, trivial, rfl⟩
      exact (Local_append _ _).2 ⟨by simp [Local_cons, Local_nil, Effect.isLocal], hl⟩
    · right
      refine ⟨_, ?_, trivial, rfl⟩
      exact (Local_append _ _).2 ⟨by simp [Local_cons, Local_nil, Effect.isLocal], hl⟩
    · left
      exact ⟨_, rfl, by simp [Local_cons, Local_nil, Effect.isLocal]⟩

theorem naming_cases (g : GitServer) (w : World) (u : Upstream) (repo output : String) :
    StopsOr u (naming g w u repo output) ((shaMatch output).length = 40)
      (building g w u repo (sha16 output)) := by
  unfold naming StopsOr FindStringSubmatch
  simp only
  split_ifs with h
  · left
    exact ⟨_, rfl, by simp [Local_cons, Local_nil, Effect.isLocal]⟩
  · right
    refine ⟨[], Local_nil, ?_, ?_⟩
    · simpa [shaMatch] using h
    · simp [Result.after, sha16, shaMatch]

theorem testing_cases (g : GitServer) (w : World) (u : Upstream) (repo : String) :
    StopsOr u (testing g w u repo)
      ((w.execCmd g.workspace "go" ["test", "-v", "./..."]).2 = none)
      (naming g w u repo (commitOutput g w)) := by
  unfold testing StopsOr
  have hl := logLines_local (w.execCmd g.workspace "go" ["test", "-v", "./..."]).1
  simp only
  split
  · left
    exact ⟨_, rfl, by simp [Local_cons, Local_append, Local_nil, Effect.isLocal, hl]⟩
  · rename_i ht
    split
    · left
      exact ⟨_, rfl, by simp [Local_cons, Local_append, Local_nil, Effect.isLocal, hl]⟩
    · right
      exact ⟨_, by simp [Local_cons, Local_append, Local_nil, Effect.isLocal, hl], ht, rfl⟩

theorem syncing_cases (g : GitServer) (w : World) (u : Upstream) (repo : String) :
    StopsOr u (syncing g w u repo) True (testing g w u repo) := by
  unfold syncing StopsOr
  simp only
  split
  · left
    exact ⟨_, rfl, by simp [Local_cons, Local_nil, Effect.isLocal]⟩
  · split
    · left
      exact ⟨_, rfl, by simp [Local_cons, Local_nil, Effect.isLocal]⟩
    · split_ifs
      · split
        · left
          exact ⟨_, rfl, by simp [Local_cons, Local_append, Local_nil, Effect.isLocal]⟩
        · split
          · left
            exact ⟨_, rfl, by simp [Local_cons, Local_append, Local_nil, Effect.isLocal]⟩
          · split
            · left
              exact ⟨_, rfl, by simp [Local_cons, Local_append, Local_nil, Effect.isLocal]⟩
            · right
              exact ⟨_, by simp [Local_cons, Local_append, Local_nil, Effect.isLocal],
                trivial, rfl⟩
      · split
        · left
          exact ⟨_, rfl, by simp [Local_cons, Local_append, Local_nil, Effect.isLocal]⟩
        · right
          exact ⟨_, by simp [Local_cons, Local_append, Local_nil, Effect.isLocal],
            trivial, rfl⟩

theorem StopsOr_trans {u : Upstream} {r s t : Result} {c d : Prop}
    (h1 : StopsOr u r c s) (h2 : StopsOr u s d t) : StopsOr u r (c ∧ d) t := by
  rcases h1 with ⟨t1, rfl, hl⟩ | ⟨pre, hpre, hc, rfl⟩
  · exact Or.inl ⟨t1, rfl, hl⟩
  · rcases h2 with ⟨t2, rfl, hl⟩ | ⟨pre2, hpre2, hd, rfl⟩
    · exact Or.inl ⟨pre ++ t2, rfl, (Local_append _ _).2 ⟨hpre, hl⟩⟩
    · exact Or.inr ⟨pre ++ pre2, (Local_append _ _).2 ⟨hpre, hpre2⟩, ⟨hc, hd⟩,
        after_after _ _ _⟩

theorem Update_syncing (g : GitServer) (w : World) (u : Upstream) (repo : String) :
    StopsOr u (Update g w u repo) (w.Stat g.workspace ≠ .notExist) (syncing g w u repo) := by
  unfold StopsOr Update
  cases hs : w.Stat g.workspace with
  | notExist =>
    left
    cases hc : (w.execCmd g.gitRootPath "git" ["clone", g.absRepoPath, g.workspace]).2 <;>
      simp only [hc] <;>
      exact ⟨_, rfl, by simp [Local_cons, Local_nil, Effect.isLocal]⟩
  | ok =>
    right
    exact ⟨_, by simp [Local_cons, Local_nil, Effect.isLocal], by simp, rfl⟩
  | otherErr =>
    right
    exact ⟨_, by simp [Local_cons, Local_nil, Effect.isLocal], by simp, rfl⟩

/-- Every cycle either stops before the idempotence check, with the registry
untouched and local calls only, or reaches `launch` with the artifact named
after the commit, after local calls only. -/
theorem Update_cases (g : GitServer) (w : World) (u : Upstream) (repo : String) :
    StopsOr u (Update g w u repo)
      ((w.execCmd g.workspace "go" ["test", "-v", "./..."]).2 = none ∧
        (shaMatch (commitOutput g w)).length = 40 ∧
        (w.execCmd g.workspace "go"
          ["build", "-o", artifactPath g w repo (sha16 (commitOutput g w)), "."]).2 = none)
      (launch w u (artifactPath g w repo (sha16 (commitOutput g w)))
        (exeName w repo (sha16 (commitOutput g w)))) := by
  have h := StopsOr_trans (Update_syncing g w u repo)
    (StopsOr_trans (syncing_cases g w u repo)
      (StopsOr_trans (testing_cases g w u repo)
        (StopsOr_trans (naming_cases g w u repo (commitOutput g w))
          (building_cases g w u repo (sha16 (commitOutput g w))))))
  rcases h with h | ⟨pre, hpre, hc, he⟩
  · exact Or.inl h
  · exact Or.inr ⟨pre, hpre, ⟨hc.2.2.1, hc.2.2.2.1, hc.2.2.2.2⟩, he⟩


theorem upstreamCalls_local (t : List Effect) (h : Local t) : upstreamCalls t = [] := by
  simp only [upstreamCalls, List.filter_eq_nil_iff]
  intro e he
  simp [h e he]

theorem upstreamCalls_append (a b : List Effect) :
    upstreamCalls (a ++ b) = upstreamCalls a ++ upstreamCalls b := by
  simp [upstreamCalls]

theorem isLocal_not_write (e : Effect) (h : e.isLocal = true) :
    e ≠ .nextPort ∧ e.isWrite = false := by
  cases e <;> simp_all [Effect.isLocal, Effect.isWrite]

/-! ## The claims on `GitServer.Update` -/

/-- C8: when the workspace directory does not exist, the cycle stats the
workspace, runs the clone of the bare repository into it and stops, logging
the error when the clone fails: no other command runs, the registry is not
called and is unchanged, no process is started or killed. -/
theorem Update_bootstrap_clones_only (g : GitServer) (w : World) (u : Upstream)
    (repo : String) (h : w.Stat g.workspace = .notExist) :
    (Update g w u repo).upstream = u ∧
    (Update g w u repo).trace =
      [.stat g.workspace,
       .execCmd g.gitRootPath "git" ["clone", g.absRepoPath, g.workspace]] ++
      (match (w.execCmd g.gitRootPath "git" ["clone", g.absRepoPath, g.workspace]).2 with
       | some err => [.logError err "could not clone" ["data", g.absRepoPath]]
       | none => []) := by
  unfold Update
  simp only [h]
  cases (w.execCmd g.gitRootPath "git" ["clone", g.absRepoPath, g.workspace]).2 <;> simp

theorem Update_bootstrap_clones_only_witness :
    (Update svc firstPushWorld served "svc").upstream = served ∧
    (Update svc firstPushWorld served "svc").trace =
      [.stat "/tmp/crzy/workarea",
       .execCmd "/tmp/crzy" "git" ["clone", "/tmp/crzy/svc", "/tmp/crzy/workarea"]] :=
  Update_bootstrap_clones_only svc firstPushWorld served "svc" (by decide)

/-- C1 (the claim as written fails): on a platform with the executable suffix
`.exe`, with `svc-abcdef0123456789/v1` registered and default, a push of
the same commit looks up `svc-abcdef0123456789.exe/v1`, does not find
it, takes a port, registers and starts a new instance and retires the
registered one. -/
theorem Update_checks_suffixed_key :
    commitOutput svc exeWorld = sampleSha ++ "\n" ∧
    (servedSample.Lookup "svc-abcdef0123456789/v1").isSome = true ∧
    upstreamCalls (Update svc exeWorld servedSample "svc").trace =
      [.getDefault, .lookup "svc-abcdef0123456789.exe/v1", .nextPort,
       .register "svc-abcdef0123456789.exe" "v1"
         { Addr := "8091",
           Cmd := { Path := "/tmp/crzy/execs/svc-abcdef0123456789.exe",
                    Env := ["PORT=8091"], Process := none } } true,
       .start { Path := "/tmp/crzy/execs/svc-abcdef0123456789.exe", Env := ["PORT=8091"],
                Process := none } (some 4242),
       .lookup "svc-abcdef0123456789/v1", .kill 4141,
       .unregister "svc-abcdef0123456789" "v1"] ∧
    servedSample.GetDefault = "svc-abcdef0123456789/v1" ∧
    (Update svc exeWorld servedSample "svc").upstream.GetDefault =
      "svc-abcdef0123456789.exe/v1" := by
  decide

/-- C1 (as amended): when the key of the commit being built with the platform
suffix in it, `<repo>-<sha16><suffix>/v1`, is registered, the cycle calls
neither `NextPort` nor `Register` nor `Unregister`, starts and kills no
process, and leaves the registry, default pointer included, as it was; its
only registry calls, if it gets that far, are the `GetDefault` and the
`Lookup` of the idempotence check. -/
theorem Update_registered_is_noop (g : GitServer) (w : World) (u : Upstream)
    (repo : String)
    (h : (u.Lookup (exeName w repo (sha16 (commitOutput g w)) ++ "/v1")).isSome = true) :
    (Update g w u repo).upstream = u ∧
    (Update g w u repo).upstream.GetDefault = u.GetDefault ∧
    (∀ e ∈ (Update g w u repo).trace, e ≠ .nextPort ∧ e.isWrite = false) ∧
    (upstreamCalls (Update g w u repo).trace = [] ∨
      upstreamCalls (Update g w u repo).trace =
        [.getDefault, .lookup (exeName w repo (sha16 (commitOutput g w)) ++ "/v1")]) := by
  rcases Update_cases g w u repo with ⟨t, ht, hl⟩ | ⟨pre, hpre, _, he⟩
  · rw [ht]
    exact ⟨rfl, rfl, fun e hmem => isLocal_not_write e (hl e hmem),
      Or.inl (upstreamCalls_local t hl)⟩
  · obtain ⟨p, hp⟩ := Option.isSome_iff_exists.1 h
    have hlaunch : launch w u (artifactPath g w repo (sha16 (commitOutput g w)))
        (exeName w repo (sha16 (commitOutput g w))) =
        ⟨u, [.getDefault, .lookup (exeName w repo (sha16 (commitOutput g w)) ++ "/v1"),
          .logInfo "executable is already running"
            ["data", exeName w repo (sha16 (commitOutput g w))]]⟩ := by
      unfold launch
      simp only [hp]
    rw [he, hlaunch]
    refine ⟨rfl, rfl, ?_, Or.inr ?_⟩
    · intro e hmem
      simp only [Result.after, List.mem_append, List.mem_cons, List.mem_singleton,
        List.not_mem_nil, or_false] at hmem
      rcases hmem with hmem | rfl | rfl | rfl
      · exact isLocal_not_write e (hpre e hmem)
      · simp [Effect.isWrite]
      · simp [Effect.isWrite]
      · simp [Effect.isWrite]
    · simp only [Result.after]
      rw [upstreamCalls_append, upstreamCalls_local pre hpre]
      simp [upstreamCalls, Effect.isLocal]

theorem Update_registered_is_noop_witness :
    upstreamCalls (Update svc pushWorld servedSample "svc").trace =
      [.getDefault, .lookup "svc-abcdef0123456789/v1"] ∧
    (Update svc pushWorld servedSample "svc").upstream = servedSample ∧
    (Update svc pushWorld servedSample "svc").upstream.GetDefault = servedSample.GetDefault ∧
    ∀ e ∈ (Update svc pushWorld servedSample "svc").trace,
      e ≠ .nextPort ∧ e.isWrite = false :=
  ⟨by decide,
   (Update_registered_is_noop svc pushWorld servedSample "svc" (by decide)).1,
   (Update_registered_is_noop svc pushWorld servedSample "svc" (by decide)).2.1,
   (Update_registered_is_noop svc pushWorld servedSample "svc" (by decide)).2.2.1⟩

/-- C3 (the claim as written fails): the commit-hash command prints 40
hexadecimal characters followed by other text, so the hash it gives is
malformed (46 characters without the line break); the cycle does not stop
there: it registers and starts a new instance and kills and unregisters the
previous default. -/
theorem Update_deploys_hash_with_trailing_text :
    commitOutput svc dirtyWorld = dirtyOutput ∧
    TrimSuffix dirtyOutput "\n" = sampleSha ++ " dirty" ∧
    (TrimSuffix dirtyOutput "\n").length = 46 ∧
    upstreamCalls (Update svc dirtyWorld served "svc").trace =
      [.getDefault, .lookup "svc-abcdef0123456789/v1", .nextPort,
       .register "svc-abcdef0123456789" "v1"
         { Addr := "8091",
           Cmd := { Path := "/tmp/crzy/execs/svc-abcdef0123456789",
                    Env := ["PORT=8091"], Process := none } } true,
       .start { Path := "/tmp/crzy/execs/svc-abcdef0123456789", Env := ["PORT=8091"],
                Process := none } (some 4242),
       .lookup "svc-0000000000000000/v1", .kill 4141,
       .unregister "svc-0000000000000000" "v1"] ∧
    (Update svc dirtyWorld served "svc").upstream ≠ served := by
  decide

/-- C3 (as amended): when the test command fails, or the output of the
commit-hash command does not start with a run of exactly 40 characters `0-9a-f`
(the `wrongsha` exit), or the build command fails, or `NextPort` reports
exhaustion, the cycle makes no `Register` or `Unregister` call, starts and
kills no process, and the registry after the cycle is the registry before it;
in the first three cases the cycle stops before any call to the registry. -/
theorem Update_failed_step_leaves_registry (g : GitServer) (w : World) (u : Upstream)
    (repo : String)
    (h : (w.execCmd g.workspace "go" ["test", "-v", "./..."]).2 ≠ none ∨
      (shaMatch (commitOutput g w)).length ≠ 40 ∨
      (w.execCmd g.workspace "go"
        ["build", "-o", artifactPath g w repo (sha16 (commitOutput g w)), "."]).2 ≠ none ∨
      u.NextPort = none) :
    (Update g w u repo).upstream = u ∧
    (∀ e ∈ (Update g w u repo).trace, e.isWrite = false) ∧
    (u.NextPort ≠ none → upstreamCalls (Update g w u repo).trace = []) := by
  rcases Update_cases g w u repo with ⟨t, ht, hl⟩ | ⟨pre, hpre, ⟨htest, hsha, hbuild⟩, he⟩
  · rw [ht]
    exact ⟨rfl, fun e hmem => (isLocal_not_write e (hl e hmem)).2,
      fun _ => upstreamCalls_local t hl⟩
  · rcases h with h | h | h | h
    · exact absurd htest h
    · exact absurd hsha h
    · exact absurd hbuild h
    · rw [he]
      unfold launch
      cases hk : u.Lookup (exeName w repo (sha16 (commitOutput g w)) ++ "/v1") with
      | some p =>
        simp only [hk]
        refine ⟨rfl, ?_, fun hne => absurd h hne⟩
        intro e hmem
        simp only [Result.after, List.mem_append, List.mem_cons, List.mem_singleton,
          List.not_mem_nil, or_false] at hmem
        rcases hmem with hmem | rfl | rfl | rfl
        · exact (isLocal_not_write e (hpre e hmem)).2
        · rfl
        · rfl
        · rfl
      | none =>
        simp only [hk, h]
        refine ⟨rfl, ?_, fun hne => absurd rfl hne⟩
        intro e hmem
        simp only [Result.after, List.mem_append, List.mem_cons, List.mem_singleton,
          List.not_mem_nil, or_false] at hmem
        rcases hmem with hmem | rfl | rfl | rfl | rfl
        · exact (isLocal_not_write e (hpre e hmem)).2
        · rfl
        · rfl
        · rfl
        · rfl

theorem Update_failed_step_leaves_registry_witness :
    upstreamCalls (Update svc pushWorld servedFull "svc").trace =
      [.getDefault, .lookup "svc-abcdef0123456789/v1", .nextPort] ∧
    (Update svc pushWorld servedFull "svc").upstream = servedFull ∧
    ∀ e ∈ (Update svc pushWorld servedFull "svc").trace, e.isWrite = false :=
  ⟨by decide,
   (Update_failed_step_leaves_registry svc pushWorld servedFull "svc"
     (Or.inr (Or.inr (Or.inr (by decide))))).1,
   (Update_failed_step_leaves_registry svc pushWorld servedFull "svc"
     (Or.inr (Or.inr (Or.inr (by decide))))).2.1⟩

/-- C2: at a push whose new process fails to start while an earlier instance
is the default, the code has already registered the new instance as default
and drops the error of `cmd.Start()`: the default pointer ends on the instance
that never started, and the earlier instance is killed and unregistered. -/
theorem Update_failed_start_retires_previous_default :
    served.GetDefault = "svc-0000000000000000/v1" ∧
    served.Lookup "svc-0000000000000000/v1" = some { Addr := "8090", Cmd := oldCmd } ∧
    Effect.start { Path := "/tmp/crzy/execs/svc-abcdef0123456789", Env := ["PORT=8091"],
                   Process := none } none
      ∈ (Update svc failedStartWorld served "svc").trace ∧
    (Update svc failedStartWorld served "svc").upstream.GetDefault
      = "svc-abcdef0123456789/v1" ∧
    (Update svc failedStartWorld served "svc").upstream.Lookup "svc-0000000000000000/v1"
      = none ∧
    Effect.kill 4141 ∈ (Update svc failedStartWorld served "svc").trace ∧
    Effect.unregister "svc-0000000000000000" "v1"
      ∈ (Update svc failedStartWorld served "svc").trace := by
  decide


theorem Lookup_some_slash (u : Upstream) (key : String) (q : HTTPProcess)
    (h : u.Lookup key = some q) : '/' ∈ key.data := by
  unfold Upstream.Lookup at h
  cases hf : u.instances.find? (fun e => e.key == key) with
  | none => simp [hf] at h
  | some e =>
    have hk := List.find?_some hf
    have hk2 : e.key = key := by simpa using hk
    rw [← hk2]
    simp [Entry.key]

theorem Lookup_Unregister (u : Upstream) (name version : String) :
    (u.Unregister name version).1.Lookup (name ++ "/" ++ version) = none := by
  unfold Upstream.Unregister
  cases h : u.Lookup (name ++ "/" ++ version) with
  | none => simpa using h
  | some q =>
    simp only [Upstream.Lookup, Option.map_eq_none', List.find?_eq_none]
    intro e he
    have := (List.mem_filter.1 he).2
    simpa using this

theorem retire_empty (u : Upstream) : retire u "" = ⟨u, []⟩ := by
  simp [retire]

theorem retire_missing (u : Upstream) (old : String) (h0 : old ≠ "")
    (h : u.Lookup old = none) : retire u old = ⟨u, [.lookup old]⟩ := by
  simp [retire, h0, h]

theorem retire_found (u : Upstream) (old : String) (q : HTTPProcess) (k : Nat)
    (h0 : old ≠ "") (h : u.Lookup old = some q) (hk : q.Cmd.Process = some k) :
    ∃ n v, n ++ "/" ++ v = old ∧ '/' ∉ v.data ∧
      retire u old = ⟨(u.Unregister n v).1,
        [.lookup old, .kill k, .logInfo "stopping instance" ["data", n ++ "," ++ v],
         .unregister n v]⟩ := by
  obtain ⟨hlen, hjoin, hlast⟩ := Split_last old (Lookup_some_slash u old q h)
  refine ⟨_, _, hjoin, hlast, ?_⟩
  simp [retire, h0, h, hk, hlen]

theorem retire_unstarted (u : Upstream) (old : String) (q : HTTPProcess)
    (h0 : old ≠ "") (h : u.Lookup old = some q) (hk : q.Cmd.Process = none) :
    retire u old =
      ⟨u, [.lookup old, .panic "invalid memory address or nil pointer dereference"]⟩ := by
  simp [retire, h0, h, hk]

theorem retire_no_register (u : Upstream) (old name version : String) (p : HTTPProcess)
    (md : Bool) : Effect.register name version p md ∉ (retire u old).trace := by
  unfold retire
  split_ifs
  · simp
  · split
    · simp
    · split
      · simp
      · simp only
        split_ifs <;> simp


/-- Once a cycle has made a `Register` call, it had reached `launch` with a
free key and a free port, and the call is the one of line 218. -/
theorem Update_register_inv (g : GitServer) (w : World) (u : Upstream)
    (repo name version : String) (p : HTTPProcess) (md : Bool)
    (hreach : Effect.register name version p md ∈ (Update g w u repo).trace) :
    version = "v1" ∧ md = true ∧ u.Lookup (name ++ "/v1") = none ∧
    name = exeName w repo (sha16 (commitOutput g w)) ∧
    u.NextPort = some p.Addr ∧
    p.Cmd = { Path := artifactPath g w repo (sha16 (commitOutput g w)),
              Env := ["PORT=" ++ p.Addr], Process := none } ∧
    ∃ pre, Local pre ∧
      Update g w u repo = (retire (promoted w u name p) u.GetDefault).after
        (pre ++ [.getDefault, .lookup (name ++ "/v1"), .nextPort,
          .logInfo "starting instance" ["data", name ++ "," ++ p.Addr],
          .register name "v1" p true,
          .start p.Cmd (w.Start p.Cmd.Path p.Cmd.Env)]) := by
  rcases Update_cases g w u repo with ⟨t, ht, hl⟩ | ⟨pre, hpre, _, he⟩
  · rw [ht] at hreach
    have := hl _ hreach
    simp [Effect.isLocal] at this
  · have hnot : Effect.register name version p md ∉ pre := by
      intro hm
      have := hpre _ hm
      simp [Effect.isLocal] at this
    rw [he] at hreach ⊢
    unfold launch at hreach ⊢
    cases hk : u.Lookup (exeName w repo (sha16 (commitOutput g w)) ++ "/v1") with
    | some q =>
      simp only [hk, Result.after, List.mem_append, List.mem_cons, List.mem_singleton,
        List.not_mem_nil, or_false] at hreach
      rcases hreach with h | h | h | h
      · exact absurd h hnot
      · cases h
      · cases h
      · cases h
    | none =>
      cases hp : u.NextPort with
      | none =>
        simp only [hk, hp, Result.after, List.mem_append, List.mem_cons, List.mem_singleton,
          List.not_mem_nil, or_false] at hreach
        rcases hreach with h | h | h | h | h
        · exact absurd h hnot
        · cases h
        · cases h
        · cases h
        · cases h
      | some port =>
        simp only [hk, hp, Result.after, List.mem_append, List.mem_cons, List.mem_singleton,
          List.not_mem_nil, or_false] at hreach
        rcases hreach with h | (h | h | h | h | h | h) | h
        · exact absurd h hnot
        · cases h
        · cases h
        · cases h
        · cases h
        · cases h
          refine ⟨rfl, rfl, hk, rfl, rfl, rfl, pre, hpre, ?_⟩
          simp [Result.after]
        · cases h
        · exact absurd h (retire_no_register _ _ _ _ _ _)

theorem upstreamCalls_promotion (pre : List Effect) (h : Local pre) (name info : String)
    (kv : List String) (p : HTTPProcess) (pid : Option Nat) (tail : List Effect) :
    upstreamCalls (pre ++ [.getDefault, .lookup (name ++ "/v1"), .nextPort,
      .logInfo info kv, .register name "v1" p true, .start p.Cmd pid] ++ tail) =
    [.getDefault, .lookup (name ++ "/v1"), .nextPort, .register name "v1" p true,
      .start p.Cmd pid] ++ upstreamCalls tail := by
  rw [upstreamCalls_append, upstreamCalls_append, upstreamCalls_local pre h]
  simp [upstreamCalls, Effect.isLocal]

/-- C5 (the claim as written fails): the output of the commit-hash command is
40 hexadecimal characters followed by other text, so without its trailing line
break it is 46 characters long, and the cycle still goes on to the build, with
no `wrongsha` error. -/
theorem naming_accepts_trailing_text :
    TrimSuffix dirtyOutput "\n" = sampleSha ++ " dirty" ∧
    (TrimSuffix dirtyOutput "\n").length = 46 ∧
    Effect.logError "wrongsha" dirtyOutput [] ∉ (naming svc pushWorld served "svc" dirtyOutput).trace ∧
    Effect.execCmd "/tmp/crzy/workarea" "go"
        ["build", "-o", "/tmp/crzy/execs/svc-abcdef0123456789", "."]
      ∈ (naming svc pushWorld served "svc" dirtyOutput).trace := by
  decide

/-- C5 (as amended): the cycle goes on past naming exactly when the longest
leading run of characters `0-9a-f` of the output is 40 characters long,
whatever follows it; otherwise it stops with the `wrongsha` error and nothing
else. When it goes on, the suffix is the first 16 characters of that run and
the build writes the file `<repo>-<suffix>` plus the executable suffix in the
artifact directory. -/
theorem naming_accepts_forty_hex_run (g : GitServer) (w : World) (u : Upstream)
    (repo output : String) :
    (Effect.mkdir (w.pathJoin g.gitRootPath artifacts) ∈ (naming g w u repo output).trace ↔
      (output.data.takeWhile isLowerHex).length = 40) ∧
    ((output.data.takeWhile isLowerHex).length ≠ 40 →
      naming g w u repo output = ⟨u, [.logError "wrongsha" output []]⟩) ∧
    ((output.data.takeWhile isLowerHex).length = 40 →
      naming g w u repo output =
        building g w u repo (String.mk ((output.data.takeWhile isLowerHex).take 16)) ∧
      ((∀ err, w.Mkdir (w.pathJoin g.gitRootPath artifacts) ≠ .otherErr err) →
        Effect.execCmd g.workspace "go"
          ["build", "-o",
           w.pathJoin g.gitRootPath artifacts ++ "/" ++ repo ++ "-"
             ++ String.mk ((output.data.takeWhile isLowerHex).take 16) ++ w.extension,
           "."] ∈ (naming g w u repo output).trace)) := by
  have hbad : (output.data.takeWhile isLowerHex).length ≠ 40 →
      naming g w u repo output = ⟨u, [.logError "wrongsha" output []]⟩ := by
    intro h
    simp [naming, FindStringSubmatch, h]
  have hgood : (output.data.takeWhile isLowerHex).length = 40 →
      naming g w u repo output =
        building g w u repo (String.mk ((output.data.takeWhile isLowerHex).take 16)) := by
    intro h
    simp [naming, FindStringSubmatch, h]
  have hmk : ∀ sha, Effect.mkdir (w.pathJoin g.gitRootPath artifacts)
      ∈ (building g w u repo sha).trace := by
    intro sha
    unfold building
    cases hm : w.Mkdir (w.pathJoin g.gitRootPath artifacts) <;> simp only [hm]
    · cases (w.execCmd g.workspace "go" ["build", "-o", artifactPath g w repo sha, "."]).2 <;>
        simp [Result.after]
    · cases (w.execCmd g.workspace "go" ["build", "-o", artifactPath g w repo sha, "."]).2 <;>
        simp [Result.after]
    · simp
  refine ⟨⟨?_, ?_⟩, hbad, ?_⟩
  · intro hmem
    by_contra hne
    rw [hbad hne] at hmem
    simp at hmem
  · intro h
    rw [hgood h]
    exact hmk _
  · intro h
    refine ⟨hgood h, ?_⟩
    intro hm
    rw [hgood h]
    unfold building
    cases hmk2 : w.Mkdir (w.pathJoin g.gitRootPath artifacts) with
    | otherErr err => exact absurd hmk2 (hm err)
    | ok =>
      simp only [hmk2]
      cases (w.execCmd g.workspace "go" ["build", "-o", artifactPath g w repo
        (String.mk ((output.data.takeWhile isLowerHex).take 16)), "."]).2 <;>
        simp [Result.after, artifactPath]
    | exist =>
      simp only [hmk2]
      cases (w.execCmd g.workspace "go" ["build", "-o", artifactPath g w repo
        (String.mk ((output.data.takeWhile isLowerHex).take 16)), "."]).2 <;>
        simp [Result.after, artifactPath]

theorem naming_accepts_forty_hex_run_witness :
    Effect.mkdir "/tmp/crzy/execs" ∈ (naming svc pushWorld served "svc" (sampleSha ++ "\n")).trace ∧
    Effect.execCmd "/tmp/crzy/workarea" "go"
        ["build", "-o", "/tmp/crzy/execs/svc-abcdef0123456789", "."]
      ∈ (naming svc pushWorld served "svc" (sampleSha ++ "\n")).trace :=
  ⟨(naming_accepts_forty_hex_run svc pushWorld served "svc" (sampleSha ++ "\n")).1.2
      (by decide),
   ((naming_accepts_forty_hex_run svc pushWorld served "svc" (sampleSha ++ "\n")).2.2
      (by decide)).2 (fun _ h => MkdirResult.noConfusion h)⟩

/-! ## The claim on `GitServer.Updater` -/

/-- C6: the handler calls the wrapped handler once, with the request as
received, and then calls `Update` with the configured repository name exactly
when the method is `POST` and the path is `/<repoName>/git-receive-pack`, both
as they were before the wrapped handler ran. -/
theorem Updater_triggers_on_receive_pack (g : GitServer) (next : Request → Request)
    (r : Request) :
    (Updater g next r).1.head? = some (.ServeHTTP r) ∧
    (Updater g next r).1.filter HandlerCall.isServeHTTP = [.ServeHTTP r] ∧
    (HandlerCall.Update g.repoName ∈ (Updater g next r).1 ↔
      r.Method = "POST" ∧ r.Path = "/" ++ g.repoName ++ "/git-receive-pack") ∧
    (∀ repo, HandlerCall.Update repo ∈ (Updater g next r).1 → repo = g.repoName) ∧
    (Updater g next r).1.length ≤ 2 ∧
    (Updater g next r).2 = next r := by
  unfold Updater
  by_cases h : r.Path = "/" ++ g.repoName ++ "/git-receive-pack" ∧ r.Method = MethodPost
  · have h2 : r.Method = "POST" := h.2
    simp [h, h2, MethodPost, HandlerCall.isServeHTTP]
  · simp only [h, if_false]
    have h3 : ¬ (r.Method = "POST" ∧ r.Path = "/" ++ g.repoName ++ "/git-receive-pack") :=
      fun c => h ⟨c.2, c.1⟩
    simp [h3, HandlerCall.isServeHTTP]


/-! ## The claim on `workflow.execute` -/

/-- C7 (the claim as written fails): when the templates of the step do not
resolve, `execute` returns the error of `prepare` and emits no record. -/
theorem execute_unresolved_emits_nothing :
    (sampleWorkflow.execute unresolvedRunner testStep).err = some "template" ∧
    (sampleWorkflow.execute unresolvedRunner testStep).notified = [] := by
  decide

/-- C7 (as amended): when `prepare` fails, `execute` returns its error and
emits no record. When `prepare` succeeds, `execute` emits exactly one record,
with status Done or Failed, the start time and the duration, whether the
command could not be launched, exited with an error, or succeeded; the status
is Failed exactly when `execute` returns an error. -/
theorem execute_notifies_once_when_prepared (wf : workflow) (rt : Runner) (e : execStruct) :
    (∀ err, rt.prepare e wf.basedir wf.envs = .error err →
      (wf.execute rt e).notified = [] ∧ (wf.execute rt e).err = some err) ∧
    (∀ cmd, rt.prepare e wf.basedir wf.envs = .ok cmd →
      ∃ n, (wf.execute rt e).notified = [n] ∧
        n.version = wf.version ∧ n.name = wf.name ∧ n.record.Name = e.name ∧
        n.record.exec = e ∧
        n.record.StartTime = some rt.Now ∧
        n.record.Duration = some (rt.Since rt.Now) ∧
        (n.status = .runnerStatusDone ∨ n.status = .runnerStatusFailed) ∧
        (n.status = .runnerStatusFailed ↔ (wf.execute rt e).err ≠ none) ∧
        (wf.execute rt e).err = (rt.CombinedOutput cmd).2) := by
  constructor
  · intro err h
    simp [workflow.execute, h]
  · intro cmd h
    unfold workflow.execute
    simp only [h]
    cases hc : (rt.CombinedOutput cmd).2 with
    | some err =>
      refine ⟨_, rfl, rfl, rfl, rfl, rfl, rfl, rfl, ?_, ?_, ?_⟩ <;> simp
    | none =>
      by_cases ho : e.Output = ""
      · simp only [ho, ne_eq, not_true_eq_false, if_false]
        refine ⟨_, rfl, rfl, rfl, rfl, rfl, rfl, rfl, ?_, ?_, ?_⟩ <;> simp
      · simp only [ne_eq, ho, not_false_eq_true, if_true]
        refine ⟨_, rfl, rfl, rfl, rfl, rfl, rfl, rfl, ?_, ?_, ?_⟩ <;> simp

theorem execute_notifies_once_when_prepared_witness :
    ∃ n, (sampleWorkflow.execute failingRunner testStep).notified = [n] ∧
      n.status = .runnerStatusFailed ∧ n.record.StartTime = some 100 ∧
      n.record.Duration = some 5 ∧
      (sampleWorkflow.execute failingRunner testStep).err = some "exit status 1" := by
  obtain ⟨n, h1, _, _, _, _, h6, h7, _, h9, h10⟩ :=
    (execute_notifies_once_when_prepared sampleWorkflow failingRunner testStep).2
      { Path := "go", Args := ["test", "-v", "./..."], Dir := "/tmp/crzy/workarea",
        Env := [] } rfl
  have herr : (sampleWorkflow.execute failingRunner testStep).err = some "exit status 1" :=
    h10
  exact ⟨n, h1, h9.2 (by rw [herr]; simp), h6, h7, herr⟩

/-! ## The claim on `triggerWorkflow.start` -/

theorem trigger_foldl_returned (s : TriggerState) (cases : List Selected)
    (h : s.returned ≠ none) : cases.foldl triggerWorkflow.step s = s := by
  induction cases with
  | nil => rfl
  | cons c cs ih =>
    have hs : triggerWorkflow.step s c = s := by
      unfold triggerWorkflow.step
      cases hr : s.returned with
      | none => exact absurd hr h
      | some _ => rfl
    rw [List.foldl_cons, hs, ih]

theorem trigger_foldl_actions (s : TriggerState) (actions : List String)
    (h : s.returned = none) :
    (actions.map Selected.action).foldl triggerWorkflow.step s =
      { logged := s.logged ++ actions.map (fun a => "trigger " ++ a ++ " started...")
        sent := s.sent ++ List.replicate actions.length triggeredMessage
        returned := none } := by
  induction actions generalizing s with
  | nil =>
    cases s
    simp_all
  | cons a as ih =>
    have hs : triggerWorkflow.step s (.action a) =
        { s with
            logged := s.logged ++ ["trigger " ++ a ++ " started..."]
            sent := s.sent ++ [triggeredMessage] } := by
      unfold triggerWorkflow.step
      simp [h]
    have hnext := ih
      { s with
          logged := s.logged ++ ["trigger " ++ a ++ " started..."]
          sent := s.sent ++ [triggeredMessage] } h
    rw [List.map_cons, List.foldl_cons, hs, hnext]
    simp [List.replicate_succ]

/-- C9: whatever the actions received, the stage sends one message per action
on the deploy channel, each the literal "triggered", and nothing else; it has
not returned as long as only actions were received, and once the cancellation
case is taken it has returned `nil` and does nothing more. -/
theorem trigger_start_emits_triggered :
    triggeredMessage = "triggered" ∧
    (∀ actions : List String,
      triggerWorkflow.start (actions.map Selected.action) =
        { logged := actions.map (fun a => "trigger " ++ a ++ " started...")
          sent := List.replicate actions.length "triggered"
          returned := none }) ∧
    (∀ (actions : List String) (rest : List Selected),
      triggerWorkflow.start (actions.map Selected.action ++ Selected.done :: rest) =
        { logged := actions.map (fun a => "trigger " ++ a ++ " started...")
          sent := List.replicate actions.length "triggered"
          returned := some none }) ∧
    (∀ cases : List Selected,
      ((triggerWorkflow.start cases).returned = none ∨
        (triggerWorkflow.start cases).returned = some none) ∧
      ((triggerWorkflow.start cases).returned = some none ↔ Selected.done ∈ cases)) := by
  have h1 : ∀ actions : List String,
      triggerWorkflow.start (actions.map Selected.action) =
        { logged := actions.map (fun a => "trigger " ++ a ++ " started...")
          sent := List.replicate actions.length "triggered"
          returned := none } := by
    intro actions
    unfold triggerWorkflow.start
    rw [trigger_foldl_actions _ _ rfl]
    simp [TriggerState.init, triggeredMessage]
  have h2 : ∀ (actions : List String) (rest : List Selected),
      triggerWorkflow.start (actions.map Selected.action ++ Selected.done :: rest) =
        { logged := actions.map (fun a => "trigger " ++ a ++ " started...")
          sent := List.replicate actions.length "triggered"
          returned := some none } := by
    intro actions rest
    have := h1 actions
    unfold triggerWorkflow.start at this ⊢
    rw [List.foldl_append, this, List.foldl_cons]
    have hs : triggerWorkflow.step
        { logged := actions.map (fun a => "trigger " ++ a ++ " started...")
          sent := List.replicate actions.length "triggered"
          returned := none } Selected.done =
        { logged := actions.map (fun a => "trigger " ++ a ++ " started...")
          sent := List.replicate actions.length "triggered"
          returned := some none } := rfl
    rw [hs]
    exact trigger_foldl_returned _ _ (by simp)
  have hsplit : ∀ cases : List Selected,
      (∃ actions : List String, cases = actions.map Selected.action ∧ Selected.done ∉ cases) ∨
      (∃ (actions : List String) (rest : List Selected),
        cases = actions.map Selected.action ++ Selected.done :: rest) := by
    intro cases
    induction cases with
    | nil => exact Or.inl ⟨[], rfl, by simp⟩
    | cons c cs ih =>
      cases c with
      | done => exact Or.inr ⟨[], cs, rfl⟩
      | action a =>
        rcases ih with ⟨as, rfl, hn⟩ | ⟨as, rest, rfl⟩
        · exact Or.inl ⟨a :: as, rfl, by simp⟩
        · exact Or.inr ⟨a :: as, rest, rfl⟩
  refine ⟨rfl, h1, h2, ?_⟩
  intro cases
  rcases hsplit cases with ⟨as, rfl, hn⟩ | ⟨as, rest, rfl⟩
  · rw [h1]
    exact ⟨Or.inl rfl, by simp⟩
  · rw [h2]
    exact ⟨Or.inr rfl, by simp⟩

/-! ## The claim on the current ref -/

theorem TrimSuffix_newline (s : String) : TrimSuffix (s ++ "\n") "\n" = s := by
  apply String.ext
  simp [TrimSuffix, List.isSuffixOf]

/-- C10: for a detached `HEAD` (a bare commit hash) and for an empty file the
split has one element and the slice `[2:]` is out of range, so the cycle
panics right after reading the file; for `ref: refs/heads/<branch>` followed
by a line break the extraction is defined and yields `<branch>`, whatever
`<branch>` holds. -/
theorem currentRef_detached_head_panics :
    currentRef detachedHead = none ∧
    currentRef "" = none ∧
    (Update svc detachedWorld served "svc").trace =
      [.stat "/tmp/crzy/workarea", .readFile "/tmp/crzy/workarea/.git/HEAD",
       .panic "slice bounds out of range"] ∧
    (∀ branch : String, currentRef ("ref: refs/heads/" ++ branch ++ "\n") = some branch) := by
  refine ⟨by decide, by decide, by decide, ?_⟩
  intro branch
  have hsplit : Split ("ref: refs/heads/" ++ branch) '/' =
      "ref: refs" :: "heads" :: Split branch '/' := by
    have h1 : ("ref: refs/heads/" ++ branch).data =
        "ref: refs".data ++ '/' :: ("heads".data ++ '/' :: branch.data) := by
      simp [String.data_append]
    unfold Split
    rw [h1, splitChars_append_sep _ _ _ (by decide), splitChars_append_sep _ _ _ (by decide)]
    rfl
  unfold currentRef
  rw [TrimSuffix_newline, hsplit]
  simp [sliceFrom, Join_Split]


/-! ## The registry invariant along a cycle -/

theorem started_defaultKey (u : Upstream) (key : String) (pid : Nat) :
    (u.started key pid).defaultKey = u.defaultKey := rfl

theorem Lookup_isSome_iff (u : Upstream) (k : String) :
    (u.Lookup k).isSome = true ↔ ∃ e ∈ u.instances, e.key = k := by
  simp [Upstream.Lookup, List.find?_isSome]

theorem Lookup_none_iff (u : Upstream) (k : String) :
    u.Lookup k = none ↔ ∀ e ∈ u.instances, e.key ≠ k := by
  simp [Upstream.Lookup, List.find?_eq_none]

theorem started_registered (u : Upstream) (key k : String) (pid : Nat)
    (h : (u.Lookup k).isSome = true) : ((u.started key pid).Lookup k).isSome = true := by
  rw [Lookup_isSome_iff] at h ⊢
  obtain ⟨e, he, hk⟩ := h
  by_cases hc : e.key = key
  · exact ⟨{ e with proc := { e.proc with Cmd := { e.proc.Cmd with Process := some pid } } },
      by
        simp only [Upstream.started, List.mem_map]
        exact ⟨e, he, by simp [hc]⟩,
      hk⟩
  · exact ⟨e, by
      simp only [Upstream.started, List.mem_map]
      exact ⟨e, he, by simp [hc]⟩, hk⟩

theorem Register_registered (u : Upstream) (name version : String) (p : HTTPProcess)
    (h : u.Lookup (name ++ "/" ++ version) = none) :
    (u.Register name version p true).1.defaultKey = name ++ "/" ++ version ∧
    ((u.Register name version p true).1.Lookup (name ++ "/" ++ version)).isSome = true := by
  unfold Upstream.Register
  simp only [h]
  refine ⟨by simp, ?_⟩
  rw [Lookup_isSome_iff]
  exact ⟨_, List.mem_cons_self _ _, rfl⟩

theorem Unregister_defaultKey (u : Upstream) (name version : String) :
    (u.Unregister name version).1.defaultKey = u.defaultKey := by
  unfold Upstream.Unregister
  cases u.Lookup (name ++ "/" ++ version) <;> rfl

theorem Unregister_keeps_other (u : Upstream) (name version k : String)
    (hk : k ≠ name ++ "/" ++ version) (h : (u.Lookup k).isSome = true) :
    ((u.Unregister name version).1.Lookup k).isSome = true := by
  unfold Upstream.Unregister
  cases u.Lookup (name ++ "/" ++ version) with
  | none => exact h
  | some q =>
    rw [Lookup_isSome_iff] at h ⊢
    obtain ⟨e, he, hek⟩ := h
    refine ⟨e, ?_, hek⟩
    simp only [List.mem_filter]
    refine ⟨he, ?_⟩
    simp [hek, hk]

theorem key_v1 (exe : String) : exe ++ "/" ++ "v1" = exe ++ "/v1" := by
  rw [String.append_assoc]
  rfl

theorem promoted_registered (w : World) (u : Upstream) (exe : String) (p : HTTPProcess)
    (h : u.Lookup (exe ++ "/v1") = none) :
    (promoted w u exe p).defaultKey = exe ++ "/v1" ∧
    ((promoted w u exe p).Lookup (exe ++ "/v1")).isSome = true := by
  rw [← key_v1] at h ⊢
  have hr := Register_registered u exe "v1" p h
  unfold promoted
  cases w.Start p.Cmd.Path p.Cmd.Env with
  | none => exact hr
  | some n => exact ⟨hr.1, started_registered _ _ _ _ hr.2⟩

theorem retire_upstream (u : Upstream) (old : String) :
    (retire u old).upstream = u ∨
    ∃ n v, n ++ "/" ++ v = old ∧ (retire u old).upstream = (u.Unregister n v).1 := by
  by_cases h0 : old = ""
  · left
    rw [h0, retire_empty]
  · cases hl : u.Lookup old with
    | none =>
      left
      rw [retire_missing u old h0 hl]
    | some q =>
      cases hk : q.Cmd.Process with
      | none =>
        left
        rw [retire_unstarted u old q h0 hl hk]
      | some k =>
        right
        obtain ⟨n, v, hnv, _, hr⟩ := retire_found u old q k h0 hl hk
        exact ⟨n, v, hnv, by rw [hr]⟩

theorem launch_keeps_default_registered (w : World) (u : Upstream) (artifact exe : String)
    (h : DefaultRegistered u) : DefaultRegistered (launch w u artifact exe).upstream := by
  unfold launch
  cases hk : u.Lookup (exe ++ "/v1") with
  | some q => exact h
  | none =>
    cases hp : u.NextPort with
    | none => exact h
    | some port =>
      simp only [Result.after]
      obtain ⟨hd, hreg⟩ := promoted_registered w u exe
        { Addr := port, Cmd := { Path := artifact, Env := ["PORT=" ++ port], Process := none } }
        hk
      rcases retire_upstream (promoted w u exe
        { Addr := port, Cmd := { Path := artifact, Env := ["PORT=" ++ port],
                                 Process := none } }) u.GetDefault with hu | ⟨n, v, hnv, hu⟩
      · rw [hu]
        exact Or.inr (by rw [hd]; exact hreg)
      · rw [hu]
        right
        rw [Unregister_defaultKey, hd]
        apply Unregister_keeps_other _ _ _ _ _ hreg
        rw [hnv]
        intro heq
        rcases h with h | h
        · have : n ++ "/" ++ v = "" := by rw [hnv]; exact h
          have hdata := congrArg String.data this
          simp at hdata
        · have h2 : u.defaultKey = exe ++ "/v1" := heq.symm
          rw [h2, hk] at h
          simp at h

/-- A cycle keeps the registry invariant: when the default pointer is empty
or names a registered instance before the cycle, it does so after it. -/
theorem Update_keeps_default_registered (g : GitServer) (w : World) (u : Upstream)
    (repo : String) (h : DefaultRegistered u) :
    DefaultRegistered (Update g w u repo).upstream := by
  rcases Update_cases g w u repo with ⟨t, ht, _⟩ | ⟨pre, _, _, he⟩
  · rw [ht]
    exact h
  · rw [he]
    exact launch_keeps_default_registered w u _ _ h


theorem find_key_map (f : Entry → Entry) (hf : ∀ e, (f e).key = e.key) (k : String)
    (l : List Entry) :
    (l.map f).find? (fun e => e.key == k) = (l.find? (fun e => e.key == k)).map f := by
  induction l with
  | nil => rfl
  | cons e es ih =>
    rw [List.map_cons]
    by_cases he : e.key = k
    · rw [List.find?_cons_of_pos _ (by simp [hf, he]), List.find?_cons_of_pos _ (by simp [he])]
      rfl
    · rw [List.find?_cons_of_neg _ (by simp [hf, he]), List.find?_cons_of_neg _ (by simp [he]),
        ih]

theorem find_key_filter (r k : String) (hk : k ≠ r) (l : List Entry) :
    (l.filter (fun e => !(e.key == r))).find? (fun e => e.key == k) =
      l.find? (fun e => e.key == k) := by
  induction l with
  | nil => rfl
  | cons e es ih =>
    by_cases he : e.key = k
    · have hne : ¬ e.key = r := fun c => hk (he.symm.trans c)
      rw [List.filter_cons_of_pos (by simp [hne]), List.find?_cons_of_pos _ (by simp [he]),
        List.find?_cons_of_pos _ (by simp [he])]
    · rw [List.find?_cons_of_neg _ (by simp [he])]
      by_cases hr : e.key = r
      · rw [List.filter_cons_of_neg (by simp [hr]), ih]
      · rw [List.filter_cons_of_pos (by simp [hr]), List.find?_cons_of_neg _ (by simp [he]), ih]

theorem Lookup_Register_new (u : Upstream) (name version : String) (p : HTTPProcess)
    (md : Bool) (h : u.Lookup (name ++ "/" ++ version) = none) :
    (u.Register name version p md).1.Lookup (name ++ "/" ++ version) = some p := by
  unfold Upstream.Register
  simp only [h]
  unfold Upstream.Lookup
  rw [List.find?_cons_of_pos _ (by simp [Entry.key])]
  rfl

theorem Lookup_Register_other (u : Upstream) (name version k : String) (p : HTTPProcess)
    (md : Bool) (hk : k ≠ name ++ "/" ++ version) :
    (u.Register name version p md).1.Lookup k = u.Lookup k := by
  unfold Upstream.Register
  cases u.Lookup (name ++ "/" ++ version) with
  | some q => rfl
  | none =>
    have : ¬ (name ++ "/" ++ version = k) := fun e => hk e.symm
    unfold Upstream.Lookup
    rw [List.find?_cons_of_neg _ (by simp [Entry.key, this])]

theorem Lookup_started (u : Upstream) (key k : String) (pid : Nat) :
    (u.started key pid).Lookup k =
      (u.Lookup k).map (fun q =>
        if k = key then { q with Cmd := { q.Cmd with Process := some pid } } else q) := by
  unfold Upstream.started Upstream.Lookup
  simp only
  rw [find_key_map _ (by intro e; split_ifs <;> rfl) k]
  cases hf : u.instances.find? (fun e => e.key == k) with
  | none => rfl
  | some e =>
    have hk : e.key = k := by simpa using List.find?_some hf
    by_cases hc : k = key
    · simp [hk, hc]
    · have : ¬ e.key = key := fun c => hc (hk.symm.trans c)
      simp [hc, this]

theorem Lookup_Unregister_other (u : Upstream) (name version k : String)
    (hk : k ≠ name ++ "/" ++ version) :
    (u.Unregister name version).1.Lookup k = u.Lookup k := by
  unfold Upstream.Unregister
  cases u.Lookup (name ++ "/" ++ version) with
  | none => rfl
  | some q =>
    simp only [Upstream.Lookup]
    rw [find_key_filter _ _ hk]


theorem promoted_Lookup_new (w : World) (u : Upstream) (exe : String) (p : HTTPProcess)
    (h : u.Lookup (exe ++ "/v1") = none) (hp : p.Cmd.Process = none) :
    (promoted w u exe p).Lookup (exe ++ "/v1") =
      some { Addr := p.Addr,
             Cmd := { Path := p.Cmd.Path, Env := p.Cmd.Env,
                      Process := w.Start p.Cmd.Path p.Cmd.Env } } := by
  have hr : (u.Register exe "v1" p true).1.Lookup (exe ++ "/v1") = some p := by
    rw [← key_v1] at h ⊢
    exact Lookup_Register_new u exe "v1" p true h
  unfold promoted
  cases hs : w.Start p.Cmd.Path p.Cmd.Env with
  | none =>
    simp only [hr, ← hp]
  | some n =>
    simp only [Lookup_started, hr, Option.map_some', if_true]

theorem promoted_Lookup_other (w : World) (u : Upstream) (exe k : String) (p : HTTPProcess)
    (hk : k ≠ exe ++ "/v1") : (promoted w u exe p).Lookup k = u.Lookup k := by
  have hr : (u.Register exe "v1" p true).1.Lookup k = u.Lookup k :=
    Lookup_Register_other u exe "v1" k p true (by rw [key_v1]; exact hk)
  unfold promoted
  cases w.Start p.Cmd.Path p.Cmd.Env with
  | none => exact hr
  | some n =>
    simp only [Lookup_started, hr, hk, if_false]
    cases u.Lookup k <;> rfl

theorem retire_defaultKey (u : Upstream) (old : String) :
    (retire u old).upstream.defaultKey = u.defaultKey := by
  rcases retire_upstream u old with h | ⟨n, v, _, h⟩
  · rw [h]
  · rw [h, Unregister_defaultKey]

/-! ## The claim on the retirement of the previous default -/

/-- C4 (the claim as written fails): two pushes. In the first, the default is
an instance whose process never started (the registry left by a failed start):
the cycle registers the new instance, `Lookup(old)` succeeds, and the cycle
panics on the nil process with nothing killed and nothing unregistered. In the
second, the default pointer names the very key being deployed without that key
being registered: after the registration `Lookup(old)` finds the new instance,
whose process is killed and whose key is unregistered. -/
theorem Update_retire_fails_on_unstarted_or_dangling_default :
    (afterFailedStart.GetDefault = "svc-abcdef0123456789/v1" ∧
      afterFailedStart.Lookup "svc-abcdef0123456789/v1" =
        some { Addr := "8091",
               Cmd := { Path := "/tmp/crzy/execs/svc-abcdef0123456789",
                        Env := ["PORT=8091"], Process := none } } ∧
      upstreamCalls (Update svc secondPushWorld afterFailedStart "svc").trace =
        [.getDefault, .lookup "svc-1111111111111111/v1", .nextPort,
         .register "svc-1111111111111111" "v1"
           { Addr := "8090",
             Cmd := { Path := "/tmp/crzy/execs/svc-1111111111111111",
                      Env := ["PORT=8090"], Process := none } } true,
         .start { Path := "/tmp/crzy/execs/svc-1111111111111111", Env := ["PORT=8090"],
                  Process := none } (some 4242),
         .lookup "svc-abcdef0123456789/v1"] ∧
      (Update svc secondPushWorld afterFailedStart "svc").trace.getLast? =
        some (.panic "invalid memory address or nil pointer dereference") ∧
      ((Update svc secondPushWorld afterFailedStart "svc").upstream.Lookup
        "svc-abcdef0123456789/v1").isSome = true) ∧
    (dangling.GetDefault = "svc-abcdef0123456789/v1" ∧
      upstreamCalls (Update svc pushWorld dangling "svc").trace =
        [.getDefault, .lookup "svc-abcdef0123456789/v1", .nextPort,
         .register "svc-abcdef0123456789" "v1"
           { Addr := "8090",
             Cmd := { Path := "/tmp/crzy/execs/svc-abcdef0123456789",
                      Env := ["PORT=8090"], Process := none } } true,
         .start { Path := "/tmp/crzy/execs/svc-abcdef0123456789", Env := ["PORT=8090"],
                  Process := none } (some 4242),
         .lookup "svc-abcdef0123456789/v1", .kill 4242,
         .unregister "svc-abcdef0123456789" "v1"] ∧
      (Update svc pushWorld dangling "svc").upstream.Lookup "svc-abcdef0123456789/v1" =
        none) := by
  decide

/-- C4 (as amended): in a cycle that registers a new instance, the call is
`Register(name, "v1", p, true)` for the artifact of the commit, on the port
given by `NextPort`, and afterwards the default pointer is `name/v1` and
`name/v1` is registered with the process that `cmd.Start()` gave. The key
retired is `old`, the default read from the registry as it was before that
registration. With `old` empty nothing is retired. When `Lookup(old)` fails
(`old` is not registered and is not the new key) nothing is killed or
unregistered. When `old` was registered with a started process `k`, it is not
the new key, and the registry and process calls end with `Lookup(old)`, the
kill of `k` and then `Unregister(n, v)` where `n + "/" + v = old` and `v`
holds no `/`; afterwards `old` is not registered. Every other key is
registered as before. -/
theorem Update_retires_previous_default (g : GitServer) (w : World) (u : Upstream)
    (repo name version : String) (p : HTTPProcess) (md : Bool)
    (hreach : Effect.register name version p md ∈ (Update g w u repo).trace) :
    version = "v1" ∧ md = true ∧
    name = exeName w repo (sha16 (commitOutput g w)) ∧
    u.Lookup (name ++ "/v1") = none ∧
    u.NextPort = some p.Addr ∧
    p.Cmd = { Path := artifactPath g w repo (sha16 (commitOutput g w)),
              Env := ["PORT=" ++ p.Addr], Process := none } ∧
    (Update g w u repo).upstream.GetDefault = name ++ "/v1" ∧
    (u.GetDefault = "" →
      upstreamCalls (Update g w u repo).trace =
        [.getDefault, .lookup (name ++ "/v1"), .nextPort, .register name "v1" p true,
         .start p.Cmd (w.Start p.Cmd.Path p.Cmd.Env)] ∧
      (Update g w u repo).upstream.Lookup (name ++ "/v1") =
        some { Addr := p.Addr,
               Cmd := { Path := p.Cmd.Path, Env := p.Cmd.Env,
                        Process := w.Start p.Cmd.Path p.Cmd.Env } } ∧
      ∀ key, key ≠ name ++ "/v1" → (Update g w u repo).upstream.Lookup key = u.Lookup key) ∧
    (u.GetDefault ≠ "" → u.GetDefault ≠ name ++ "/v1" → u.Lookup u.GetDefault = none →
      upstreamCalls (Update g w u repo).trace =
        [.getDefault, .lookup (name ++ "/v1"), .nextPort, .register name "v1" p true,
         .start p.Cmd (w.Start p.Cmd.Path p.Cmd.Env), .lookup u.GetDefault] ∧
      (Update g w u repo).upstream.Lookup (name ++ "/v1") =
        some { Addr := p.Addr,
               Cmd := { Path := p.Cmd.Path, Env := p.Cmd.Env,
                        Process := w.Start p.Cmd.Path p.Cmd.Env } } ∧
      ∀ key, key ≠ name ++ "/v1" → (Update g w u repo).upstream.Lookup key = u.Lookup key) ∧
    (∀ q k, u.Lookup u.GetDefault = some q → q.Cmd.Process = some k →
      u.GetDefault ≠ name ++ "/v1" ∧
      ∃ n v, n ++ "/" ++ v = u.GetDefault ∧ '/' ∉ v.data ∧
        upstreamCalls (Update g w u repo).trace =
          [.getDefault, .lookup (name ++ "/v1"), .nextPort, .register name "v1" p true,
           .start p.Cmd (w.Start p.Cmd.Path p.Cmd.Env), .lookup u.GetDefault, .kill k,
           .unregister n v] ∧
        (Update g w u repo).upstream.Lookup u.GetDefault = none ∧
        (Update g w u repo).upstream.Lookup (name ++ "/v1") =
          some { Addr := p.Addr,
                 Cmd := { Path := p.Cmd.Path, Env := p.Cmd.Env,
                          Process := w.Start p.Cmd.Path p.Cmd.Env } } ∧
        ∀ key, key ≠ name ++ "/v1" → key ≠ u.GetDefault →
          (Update g w u repo).upstream.Lookup key = u.Lookup key) := by
  obtain ⟨hv, hmd, hfree, hname, hport, hcmd, pre, hpre, he⟩ :=
    Update_register_inv g w u repo name version p md hreach
  have hproc : p.Cmd.Process = none := by rw [hcmd]
  have hnew := promoted_Lookup_new w u name p hfree hproc
  have hother := fun key hk => promoted_Lookup_other w u name key p hk
  refine ⟨hv, hmd, hname, hfree, hport, hcmd, ?_, ?_, ?_, ?_⟩
  · rw [he]
    show (retire (promoted w u name p) u.GetDefault).upstream.defaultKey = _
    rw [retire_defaultKey]
    exact (promoted_registered w u name p hfree).1
  · intro h0
    rw [he, h0, retire_empty]
    refine ⟨?_, hnew, hother⟩
    simp only [Result.after]
    rw [upstreamCalls_promotion pre hpre]
    simp [upstreamCalls]
  · intro h0 hne hl
    have hl2 : (promoted w u name p).Lookup u.GetDefault = none := by
      rw [hother _ hne]
      exact hl
    rw [he, retire_missing _ _ h0 hl2]
    refine ⟨?_, hnew, hother⟩
    simp only [Result.after]
    rw [upstreamCalls_promotion pre hpre]
    simp [upstreamCalls, Effect.isLocal]
  · intro q k hl hk
    have hne : u.GetDefault ≠ name ++ "/v1" := by
      intro heq
      rw [heq, hfree] at hl
      cases hl
    have h0 : u.GetDefault ≠ "" := by
      intro heq
      have := Lookup_some_slash u _ q hl
      rw [heq] at this
      simp at this
    have hl2 : (promoted w u name p).Lookup u.GetDefault = some q := by
      rw [hother _ hne]
      exact hl
    obtain ⟨n, v, hnv, hslash, hr⟩ := retire_found _ _ q k h0 hl2 hk
    refine ⟨hne, n, v, hnv, hslash, ?_, ?_, ?_, ?_⟩
    · rw [he, hr]
      simp only [Result.after]
      rw [upstreamCalls_promotion pre hpre]
      simp [upstreamCalls, Effect.isLocal]
    · rw [he, hr, ← hnv]
      exact Lookup_Unregister _ _ _
    · rw [he, hr]
      show ((promoted w u name p).Unregister n v).1.Lookup (name ++ "/v1") = _
      rw [Lookup_Unregister_other _ _ _ _ (by rw [hnv]; exact fun c => hne c.symm)]
      exact hnew
    · intro key hk1 hk2
      rw [he, hr]
      show ((promoted w u name p).Unregister n v).1.Lookup key = _
      rw [Lookup_Unregister_other _ _ _ _ (by rw [hnv]; exact hk2)]
      exact hother key hk1

theorem Update_retires_previous_default_witness :
    Effect.register "svc-abcdef0123456789" "v1"
        { Addr := "8091",
          Cmd := { Path := "/tmp/crzy/execs/svc-abcdef0123456789", Env := ["PORT=8091"],
                   Process := none } } true
      ∈ (Update svc pushWorld served "svc").trace ∧
    (Update svc pushWorld served "svc").upstream.GetDefault = "svc-abcdef0123456789" ++ "/v1" ∧
    served.GetDefault ≠ "svc-abcdef0123456789" ++ "/v1" ∧
    ∃ n v, n ++ "/" ++ v = served.GetDefault ∧ '/' ∉ v.data ∧
      upstreamCalls (Update svc pushWorld served "svc").trace =
        [.getDefault, .lookup ("svc-abcdef0123456789" ++ "/v1"), .nextPort,
         .register "svc-abcdef0123456789" "v1"
           { Addr := "8091",
             Cmd := { Path := "/tmp/crzy/execs/svc-abcdef0123456789", Env := ["PORT=8091"],
                      Process := none } } true,
         .start { Path := "/tmp/crzy/execs/svc-abcdef0123456789", Env := ["PORT=8091"],
                  Process := none } (some 4242),
         .lookup served.GetDefault, .kill 4141, .unregister n v] ∧
      (Update svc pushWorld served "svc").upstream.Lookup served.GetDefault = none ∧
      (Update svc pushWorld served "svc").upstream.Lookup ("svc-abcdef0123456789" ++ "/v1") =
        some { Addr := "8091",
               Cmd := { Path := "/tmp/crzy/execs/svc-abcdef0123456789",
                        Env := ["PORT=8091"], Process := some 4242 } } := by
  have h := Update_retires_previous_default svc pushWorld served "svc"
    "svc-abcdef0123456789" "v1"
    { Addr := "8091",
      Cmd := { Path := "/tmp/crzy/execs/svc-abcdef0123456789", Env := ["PORT=8091"],
               Process := none } } true (by decide)
  obtain ⟨hne, n, v, h1, h2, h3, h4, h5, _⟩ :=
    h.2.2.2.2.2.2.2.2.2 { Addr := "8090", Cmd := oldCmd } 4141 (by decide) (by decide)
  exact ⟨by decide, h.2.2.2.2.2.2.1, hne, n, v, h1, h2, h3, h4, h5⟩

end Crzy
